import Mathlib

/-!
# Playback Session Engine — shallow embedding

Shallow embedding of the playback session state machine implemented in
`PlayerProvider` (the player context of the web client).  Each React
handler reads the render-scope state and issues setter calls; within one
handler invocation every functional setter sees the pre-invocation value,
so each handler is faithfully a pure function `PState → PState`.

Real-number fields (volume, progress, duration, audio position) are
modelled as rationals.  The single `HTMLAudioElement` owned by the
provider is modelled by its observable position `audioTime`; the store
field `progress` mirrors it through the `timeupdate` handler, exactly as
in the source.
-/

namespace PlaybackEngine

/-- A track record (`Song` in `lib/types`): the fields the engine reads.
`previewUrl` models `song.features?.preview_url`; `none` means the track
has no playable reference. -/
structure Song where
  id : Nat
  title : String
  previewUrl : Option String
  deriving DecidableEq, Repr

/-- The repeat mode `'off' | 'all' | 'one'`. -/
inductive RepeatMode where
  | off
  | all
  | one
  deriving DecidableEq, Repr

/-- The session state owned by `PlayerProvider`: the React state fields
plus the audio element's position (`audioRef.current.currentTime`). -/
structure PState where
  currentSong : Option Song
  queue : List Song
  history : List Song
  isPlaying : Bool
  volume : ℚ
  progress : ℚ
  duration : ℚ
  playlistMode : Bool
  repeatMode : RepeatMode
  audioTime : ℚ
  deriving DecidableEq, Repr

/-- Constant `MAX_HISTORY_LENGTH = 20`. -/
def MAX_HISTORY_LENGTH : Nat := 20

/-- Constant `defaultVolume = 0.7`. -/
def defaultVolume : ℚ := 7 / 10

/-- The initial React state: `useState(null)`, `useState([])`,
`useState([])`, `useState(false)`, `useState(defaultVolume)`,
`useState(0)`, `useState(0)`, `useState(false)`, `useState('off')`;
the fresh audio element starts at position 0. -/
def initState : PState :=
  { currentSong := none
    queue := []
    history := []
    isPlaying := false
    volume := defaultVolume
    progress := 0
    duration := 0
    playlistMode := false
    repeatMode := RepeatMode.off
    audioTime := 0 }

/-- The insertion `[currentSong, ...prev].slice(0, MAX_HISTORY_LENGTH)`: the history
insertion used by `playSong` and `nextSong`. -/
def pushHistory (c : Song) (h : List Song) : List Song :=
  (c :: h).take MAX_HISTORY_LENGTH

/-- The guarded insertion `if (currentSong) setHistory(prev => ...)`
shared by `playSong` and `nextSong`. -/
def pushIfCurrent (cur : Option Song) (h : List Song) : List Song :=
  match cur with
  | some c => pushHistory c h
  | none => h

/-- Intent `playSong(song, newQueue = [])`: push the existing current song onto
history (trimmed), then set the current song, queue, playing flag and
progress. -/
def playSong (song : Song) (newQueue : List Song) (s : PState) : PState :=
  { s with
    history := pushIfCurrent s.currentSong s.history
    currentSong := some song
    queue := newQueue
    isPlaying := true
    progress := 0 }

/-- Intent `pauseSong()`. -/
def pauseSong (s : PState) : PState :=
  { s with isPlaying := false }

/-- Intent `resumeSong()`. -/
def resumeSong (s : PState) : PState :=
  { s with isPlaying := true }

/-- Intent `nextSong()`: if the queue is empty and `repeatMode === 'all'` and the
history is non-empty, replay the reversed history via `playSong`
(only when a current song exists); if the queue is empty otherwise,
do nothing; else pop the queue head, pushing the old current song onto
history. -/
def nextSong (s : PState) : PState :=
  match s.queue with
  | [] =>
    if s.repeatMode = RepeatMode.all then
      match s.history.reverse, s.currentSong with
      | h0 :: hrest, some _ => playSong h0 hrest s
      | _, _ => s
    else s
  | next :: rest =>
    { s with
      history := pushIfCurrent s.currentSong s.history
      currentSong := some next
      queue := rest
      isPlaying := true
      progress := 0 }

/-- Intent `seekTo(time)`: `audioRef.current.currentTime = time; setProgress(time)`
(no clamping in the store). -/
def seekTo (t : ℚ) (s : PState) : PState :=
  { s with audioTime := t, progress := t }

/-- Intent `previousSong()`: restart in place when `progress > 3`; no-op on empty
history; otherwise pop the history head as the new current song and push
the old current song (when present) onto the front of the queue. -/
def previousSong (s : PState) : PState :=
  if s.progress > 3 then seekTo 0 s
  else
    match s.history with
    | [] => s
    | prev :: rest =>
      { s with
        queue :=
          match s.currentSong with
          | some c => c :: s.queue
          | none => s.queue
        currentSong := some prev
        history := rest
        isPlaying := true
        progress := 0 }

/-- Intent `setVolume(newVolume)`: `setVolumeState(newVolume)` — the raw value is
stored, with no clamping. -/
def setVolume (v : ℚ) (s : PState) : PState :=
  { s with volume := v }

/-- Intent `addToQueue(song)`: `setQueue(prev => [...prev, song])`. -/
def addToQueue (song : Song) (s : PState) : PState :=
  { s with queue := s.queue ++ [song] }

/-- Intent `clearQueue()`. -/
def clearQueue (s : PState) : PState :=
  { s with queue := [] }

/-- Intent `setRepeatMode(mode)`. -/
def setRepeatModeOp (m : RepeatMode) (s : PState) : PState :=
  { s with repeatMode := m }

/-- Intent `togglePlaylistMode()`. -/
def togglePlaylistMode (s : PState) : PState :=
  { s with playlistMode := !s.playlistMode }

/-- The `timeupdate` listener: `setProgress(audioRef.current.currentTime)`. -/
def handleTimeUpdate (s : PState) : PState :=
  { s with progress := s.audioTime }

/-- An engine progress tick: the audio position advances to `t` and the
`timeupdate` listener mirrors it into `progress`. -/
def engineTick (t : ℚ) (s : PState) : PState :=
  handleTimeUpdate { s with audioTime := t }

/-- The `loadedmetadata` listener: `setDuration(audioRef.current.duration)`. -/
def handleLoadedMetadata (d : ℚ) (s : PState) : PState :=
  { s with duration := d }

/-- The `ended` listener `handleSongEnd()`: with `repeatMode === 'one'`
seek the audio element back to 0 and replay (no React state change);
else advance via `nextSong()` when the queue is non-empty or
`repeatMode === 'all'`; else stop (`setIsPlaying(false); setProgress(0)`). -/
def handleSongEnd (s : PState) : PState :=
  if s.repeatMode = RepeatMode.one then
    { s with audioTime := 0 }
  else if s.queue ≠ [] ∨ s.repeatMode = RepeatMode.all then
    nextSong s
  else
    { s with isPlaying := false, progress := 0 }

/-- The effect that runs when `currentSong` changes: if the song has no
`preview_url`, log and skip via `nextSong()`; otherwise load the source
and, when `isPlaying`, attempt `play()`, whose rejection
(`blocked = true`) is caught by `setIsPlaying(false)`. -/
def playbackEffect (blocked : Bool) (s : PState) : PState :=
  match s.currentSong with
  | none => s
  | some song =>
    match song.previewUrl with
    | none => nextSong s
    | some _ =>
      if s.isPlaying then
        if blocked then { s with isPlaying := false } else s
      else s

/-- The effect that runs when `isPlaying` toggles: attempt `play()`
(rejection caught by `setIsPlaying(false)`) or `pause()` the audio
element. -/
def playPauseEffect (blocked : Bool) (s : PState) : PState :=
  match s.currentSong with
  | none => s
  | some _ =>
    if s.isPlaying then
      if blocked then { s with isPlaying := false } else s
    else s

/-- What `localStorage.getItem(PLAYER_STATE_KEY)` can yield at init:
no record, an unparseable record (`JSON.parse` throws, caught by the
`try`/`catch`), or a parsed record whose three fields are each
independently optional. -/
inductive LoadOutcome where
  | absent
  | malformed
  | record (volume : Option ℚ) (repeatMode : Option RepeatMode)
      (playlistMode : Option Bool)
  deriving DecidableEq, Repr

/-- The init effect's restore step: each field of a parsed record is
applied only when present (`state.volume !== undefined`,
`state.repeatMode` truthy, `state.playlistMode !== undefined`); a missing
or malformed record leaves the defaults untouched and raises no error. -/
def initLoad (o : LoadOutcome) (s : PState) : PState :=
  match o with
  | LoadOutcome.absent => s
  | LoadOutcome.malformed => s
  | LoadOutcome.record v r p =>
    { s with
      volume := v.getD s.volume
      repeatMode := r.getD s.repeatMode
      playlistMode := p.getD s.playlistMode }

/-- States reachable from the initial render via the intent API, the
engine-driven listeners, and the provider effects. -/
inductive Reachable : PState → Prop where
  | init : Reachable initState
  | load (o : LoadOutcome) {s : PState} :
      Reachable s → Reachable (initLoad o s)
  | play (song : Song) (newQueue : List Song) {s : PState} :
      Reachable s → Reachable (playSong song newQueue s)
  | pause {s : PState} : Reachable s → Reachable (pauseSong s)
  | resume {s : PState} : Reachable s → Reachable (resumeSong s)
  | next {s : PState} : Reachable s → Reachable (nextSong s)
  | prev {s : PState} : Reachable s → Reachable (previousSong s)
  | vol (v : ℚ) {s : PState} : Reachable s → Reachable (setVolume v s)
  | seek (t : ℚ) {s : PState} : Reachable s → Reachable (seekTo t s)
  | add (song : Song) {s : PState} :
      Reachable s → Reachable (addToQueue song s)
  | clear {s : PState} : Reachable s → Reachable (clearQueue s)
  | rep (m : RepeatMode) {s : PState} :
      Reachable s → Reachable (setRepeatModeOp m s)
  | toggle {s : PState} : Reachable s → Reachable (togglePlaylistMode s)
  | tick (t : ℚ) {s : PState} : Reachable s → Reachable (engineTick t s)
  | metadata (d : ℚ) {s : PState} :
      Reachable s → Reachable (handleLoadedMetadata d s)
  | ended {s : PState} : Reachable s → Reachable (handleSongEnd s)
  | effect (b : Bool) {s : PState} :
      Reachable s → Reachable (playbackEffect b s)
  | ppEffect (b : Bool) {s : PState} :
      Reachable s → Reachable (playPauseEffect b s)

/-- The two transport intents quantified over in the history-bound
property. -/
inductive NPOp where
  | next
  | prev
  deriving DecidableEq, Repr

/-- Apply one `next`/`previous` intent. -/
def applyNP (op : NPOp) (s : PState) : PState :=
  match op with
  | NPOp.next => nextSong s
  | NPOp.prev => previousSong s

/-- Apply a sequence of `next`/`previous` intents in order. -/
def runNP (ops : List NPOp) (s : PState) : PState :=
  ops.foldl (fun s op => applyNP op s) s

theorem length_pushHistory_le (c : Song) (h : List Song) :
    (pushHistory c h).length ≤ MAX_HISTORY_LENGTH := by
  simp [pushHistory]

theorem length_pushIfCurrent_le (cur : Option Song) (h : List Song)
    (hh : h.length ≤ MAX_HISTORY_LENGTH) :
    (pushIfCurrent cur h).length ≤ MAX_HISTORY_LENGTH := by
  cases cur with
  | none => simpa [pushIfCurrent] using hh
  | some c => simpa [pushIfCurrent] using length_pushHistory_le c h

theorem playSong_history_le (song : Song) (newQueue : List Song)
    (s : PState) (hh : s.history.length ≤ MAX_HISTORY_LENGTH) :
    (playSong song newQueue s).history.length ≤ MAX_HISTORY_LENGTH := by
  simpa [playSong] using length_pushIfCurrent_le s.currentSong s.history hh

theorem nextSong_history_le (s : PState)
    (hh : s.history.length ≤ MAX_HISTORY_LENGTH) :
    (nextSong s).history.length ≤ MAX_HISTORY_LENGTH := by
  unfold nextSong
  cases hq : s.queue with
  | nil =>
    by_cases hr : s.repeatMode = RepeatMode.all
    · simp only [hr, if_pos rfl]
      cases hrev : s.history.reverse with
      | nil => simpa using hh
      | cons h0 hrest =>
        cases hc : s.currentSong with
        | none => simpa using hh
        | some c => simpa using playSong_history_le h0 hrest s hh
    · simpa [hr] using hh
  | cons next rest =>
    simpa using length_pushIfCurrent_le s.currentSong s.history hh

theorem previousSong_history_le (s : PState)
    (hh : s.history.length ≤ MAX_HISTORY_LENGTH) :
    (previousSong s).history.length ≤ MAX_HISTORY_LENGTH := by
  unfold previousSong
  by_cases hp : s.progress > 3
  · simpa [hp, seekTo] using hh
  · simp only [hp, if_neg hp]
    cases hhist : s.history with
    | nil => simp [hhist] at hh ⊢
    | cons prev rest =>
      simp only []
      have : rest.length ≤ MAX_HISTORY_LENGTH := by
        have := hh
        rw [hhist] at this
        simp at this
        omega
      simpa using this

theorem handleSongEnd_history_le (s : PState)
    (hh : s.history.length ≤ MAX_HISTORY_LENGTH) :
    (handleSongEnd s).history.length ≤ MAX_HISTORY_LENGTH := by
  unfold handleSongEnd
  by_cases h1 : s.repeatMode = RepeatMode.one
  · simpa [h1] using hh
  · by_cases h2 : s.queue ≠ [] ∨ s.repeatMode = RepeatMode.all
    · simpa [h1, h2] using nextSong_history_le s hh
    · simpa [h1, h2] using hh

theorem playbackEffect_history_le (b : Bool) (s : PState)
    (hh : s.history.length ≤ MAX_HISTORY_LENGTH) :
    (playbackEffect b s).history.length ≤ MAX_HISTORY_LENGTH := by
  unfold playbackEffect
  cases hc : s.currentSong with
  | none => simpa using hh
  | some song =>
    cases hu : song.previewUrl with
    | none => simpa [hu] using nextSong_history_le s hh
    | some url =>
      by_cases hp : s.isPlaying
      · cases b <;> simpa [hu, hp] using hh
      · simpa [hu, hp] using hh

theorem playPauseEffect_history_le (b : Bool) (s : PState)
    (hh : s.history.length ≤ MAX_HISTORY_LENGTH) :
    (playPauseEffect b s).history.length ≤ MAX_HISTORY_LENGTH := by
  unfold playPauseEffect
  cases hc : s.currentSong with
  | none => simpa using hh
  | some song =>
    by_cases hp : s.isPlaying
    · cases b <;> simpa [hp] using hh
    · simpa [hp] using hh

/-- The bounded-history invariant holds in every reachable state. -/
theorem reachable_history_le {s : PState} (hs : Reachable s) :
    s.history.length ≤ MAX_HISTORY_LENGTH := by
  induction hs with
  | init => simp [initState]
  | load o _ ih => cases o <;> simpa [initLoad] using ih
  | play song newQueue _ ih => exact playSong_history_le song newQueue _ ih
  | pause _ ih => simpa [pauseSong] using ih
  | resume _ ih => simpa [resumeSong] using ih
  | next _ ih => exact nextSong_history_le _ ih
  | prev _ ih => exact previousSong_history_le _ ih
  | vol v _ ih => simpa [setVolume] using ih
  | seek t _ ih => simpa [seekTo] using ih
  | add song _ ih => simpa [addToQueue] using ih
  | clear _ ih => simpa [clearQueue] using ih
  | rep m _ ih => simpa [setRepeatModeOp] using ih
  | toggle _ ih => simpa [togglePlaylistMode] using ih
  | tick t _ ih => simpa [engineTick, handleTimeUpdate] using ih
  | metadata d _ ih => simpa [handleLoadedMetadata] using ih
  | ended _ ih => exact handleSongEnd_history_le _ ih
  | effect b _ ih => exact playbackEffect_history_le b _ ih
  | ppEffect b _ ih => exact playPauseEffect_history_le b _ ih

theorem runNP_reachable (ops : List NPOp) {s : PState}
    (hs : Reachable s) : Reachable (runNP ops s) := by
  induction ops generalizing s with
  | nil => simpa [runNP] using hs
  | cons op rest ih =>
    have hstep : Reachable (applyNP op s) := by
      cases op with
      | next => exact Reachable.next hs
      | prev => exact Reachable.prev hs
    simpa [runNP] using ih hstep

/-- When the history is full, the insertion keeps the new entry and the
19 most recent old entries, dropping exactly the last (oldest) one. -/
theorem pushHistory_full_dropLast (c : Song) (h : List Song)
    (hlen : h.length = MAX_HISTORY_LENGTH) :
    pushHistory c h = c :: h.dropLast := by
  have h19 : h.take 19 = h.dropLast := by
    rw [List.dropLast_eq_take]
    simp [hlen, MAX_HISTORY_LENGTH]
  simp only [pushHistory, MAX_HISTORY_LENGTH, List.take_succ_cons] at *
  rw [h19]

/-! Concrete tracks and states used to instantiate the claims. -/

def songA : Song := ⟨1, "A", some "a.mp3"⟩

def songB : Song := ⟨2, "B", some "b.mp3"⟩

def songP : Song := ⟨3, "P", some "p.mp3"⟩

def songQ : Song := ⟨4, "Q", some "q.mp3"⟩

def songR : Song := ⟨5, "R", some "r.mp3"⟩

def songX : Song := ⟨6, "X", some "x.mp3"⟩

def songY : Song := ⟨7, "Y", some "y.mp3"⟩

def songZ : Song := ⟨8, "Z", some "z.mp3"⟩

def songNoSrc : Song := ⟨9, "NoSrc", none⟩

/-- Repeat-all, empty queue, history `[P, Q]` (P most recent), current
track R: the spec scenario for cycle reconstruction. -/
def stateC1 : PState :=
  { currentSong := some songR
    queue := []
    history := [songP, songQ]
    isPlaying := true
    volume := defaultVolume
    progress := 0
    duration := 200
    playlistMode := false
    repeatMode := RepeatMode.all
    audioTime := 0 }

/-- History `[X, Y]` (X most recent), current track Z, progress 1 second:
the spec scenario for `previous()`. -/
def stateC4 : PState :=
  { currentSong := some songZ
    queue := []
    history := [songX, songY]
    isPlaying := true
    volume := defaultVolume
    progress := 1
    duration := 200
    playlistMode := false
    repeatMode := RepeatMode.off
    audioTime := 1 }

/-- Repeat-one, current track without an audio source, one queued track. -/
def stateC5 : PState :=
  { currentSong := some songNoSrc
    queue := [songA]
    history := []
    isPlaying := true
    volume := defaultVolume
    progress := 0
    duration := 0
    playlistMode := false
    repeatMode := RepeatMode.one
    audioTime := 0 }

/-- Repeat-one state at the end of a track. -/
def stateC6 : PState :=
  { currentSong := some songA
    queue := [songB]
    history := [songP]
    isPlaying := true
    volume := defaultVolume
    progress := 120
    duration := 120
    playlistMode := false
    repeatMode := RepeatMode.one
    audioTime := 120 }

/-- A playing state with a loadable current track. -/
def stateC8 : PState :=
  { currentSong := some songA
    queue := [songB]
    history := [songP]
    isPlaying := true
    volume := defaultVolume
    progress := 0
    duration := 0
    playlistMode := false
    repeatMode := RepeatMode.off
    audioTime := 0 }

/-- A state with a current track, a non-empty queue and a short history. -/
def stateC10 : PState :=
  { currentSong := some songA
    queue := [songB]
    history := [songP]
    isPlaying := true
    volume := defaultVolume
    progress := 0
    duration := 0
    playlistMode := false
    repeatMode := RepeatMode.off
    audioTime := 0 }

/-! ## Claim theorems -/

/-- C1 (counterexample): in the repeat-all reconstruction from
`queue = []`, `history = [P, Q]`, `currentTrack = R`, the code yields
`currentTrack = Q` and `queue = [P]` as the claim states, but the history
is `[R, P, Q]` — the old current track pushed onto the old history — and
not the empty list the claim requires. -/
theorem c1_history_not_cleared_counterexample :
    (nextSong stateC1).currentSong = some songQ ∧
    (nextSong stateC1).queue = [songP] ∧
    (nextSong stateC1).history = [songR, songP, songQ] ∧
    (nextSong stateC1).history ≠ [] := by
  refine ⟨rfl, rfl, rfl, ?_⟩
  decide

/-- C1 (amended): when the queue is empty, `repeatMode = All`, the history
is non-empty and a current track exists, `next()` (also when triggered by
`onEnded()`) makes the oldest history entry the current track and the
remaining entries, oldest first, the new queue; the history is not
cleared but becomes the old current track pushed onto the old history,
trimmed to 20. -/
theorem c1_repeatAll_reconstruction_amended (s : PState) (c h0 : Song)
    (hrest : List Song) (hq : s.queue = []) (hr : s.repeatMode = RepeatMode.all)
    (hh : s.history.reverse = h0 :: hrest) (hc : s.currentSong = some c) :
    (nextSong s).currentSong = some h0 ∧
    (nextSong s).queue = hrest ∧
    (nextSong s).history = (c :: s.history).take MAX_HISTORY_LENGTH ∧
    (nextSong s).isPlaying = true ∧
    (nextSong s).progress = 0 ∧
    handleSongEnd s = nextSong s := by
  have hns : nextSong s = playSong h0 hrest s := by
    unfold nextSong
    rw [hq]
    simp [hr, hh, hc]
  have hpush : pushIfCurrent s.currentSong s.history =
      (c :: s.history).take MAX_HISTORY_LENGTH := by
    rw [hc]
    rfl
  have hend : handleSongEnd s = nextSong s := by
    unfold handleSongEnd
    rw [hr]
    simp
  rw [hns]
  exact ⟨rfl, rfl, by simp [playSong, hpush], rfl, rfl, by rw [hend, hns]⟩

/-- C1 (amended, witness): the reconstruction at the spec scenario state. -/
theorem c1_repeatAll_reconstruction_amended_witness :
    (nextSong stateC1).currentSong = some songQ ∧
    (nextSong stateC1).queue = [songP] ∧
    (nextSong stateC1).history =
      (songR :: stateC1.history).take MAX_HISTORY_LENGTH ∧
    (nextSong stateC1).isPlaying = true ∧
    (nextSong stateC1).progress = 0 ∧
    handleSongEnd stateC1 = nextSong stateC1 :=
  c1_repeatAll_reconstruction_amended stateC1 songR songQ [songP]
    rfl rfl (by decide) rfl

/-- C2 (counterexample): `setVolume` stores the raw argument — after
`setVolume(1.5)` the volume is 1.5, not the claimed clamp to 1.0, and
after `setVolume(-0.2)` it is -0.2, not 0. -/
theorem c2_setVolume_unclamped_counterexample :
    (setVolume (3 / 2) initState).volume = 3 / 2 ∧
    ¬ (setVolume (3 / 2) initState).volume = 1 ∧
    (setVolume (-(1 / 5)) initState).volume = -(1 / 5) ∧
    ¬ (setVolume (-(1 / 5)) initState).volume = 0 := by
  refine ⟨rfl, ?_, rfl, ?_⟩ <;>
    · simp only [setVolume]
      norm_num

/-- C2 (amended): after `setVolume(v)` the stored volume equals `v`
exactly, with no clamping, and the rest of the session state is
untouched; the invariant `volume ∈ [0,1]` is not enforced on write. -/
theorem c2_setVolume_stores_raw_amended (v : ℚ) (s : PState) :
    (setVolume v s).volume = v ∧
    (setVolume v s).queue = s.queue ∧
    (setVolume v s).history = s.history ∧
    (setVolume v s).currentSong = s.currentSong ∧
    (setVolume v s).progress = s.progress :=
  ⟨rfl, rfl, rfl, rfl, rfl⟩

/-- C3: from any reachable state, every sequence of `next`/`previous`
intents keeps `history.length ≤ 20`, and an insertion into a full history
keeps the new entry plus the 19 most recent old entries, dropping exactly
the oldest (last) one. -/
theorem c3_history_bounded (s : PState) (ops : List NPOp) (c : Song)
    (h : List Song) (hs : Reachable s)
    (hfull : h.length = MAX_HISTORY_LENGTH) :
    (runNP ops s).history.length ≤ MAX_HISTORY_LENGTH ∧
    pushHistory c h = c :: h.dropLast :=
  ⟨reachable_history_le (runNP_reachable ops hs),
    pushHistory_full_dropLast c h hfull⟩

/-- C3 (witness): the bound after one `next` from the initial state, and
the drop-oldest behaviour on a concrete full history. -/
theorem c3_history_bounded_witness :
    (runNP [NPOp.next] initState).history.length ≤ MAX_HISTORY_LENGTH ∧
    pushHistory songA (List.replicate 20 songB) =
      songA :: (List.replicate 20 songB).dropLast :=
  c3_history_bounded initState [NPOp.next] songA (List.replicate 20 songB)
    Reachable.init (by decide)

/-- C4: `previous()` by exact case analysis — with `progress > 3` it only
resets the playback position to 0; with `progress ≤ 3` and empty history
it is a no-op; otherwise it pops the history head as the new current
track, pushes the old current track onto the front of the queue, and sets
`progress = 0`, `isPlaying = true`. -/
theorem c4_previousSong_cases (s : PState) (p z : Song) (rest : List Song) :
    (s.progress > 3 →
      previousSong s = { s with progress := 0, audioTime := 0 }) ∧
    (¬ s.progress > 3 → s.history = [] → previousSong s = s) ∧
    (¬ s.progress > 3 → s.history = p :: rest → s.currentSong = some z →
      previousSong s =
        { s with currentSong := some p, queue := z :: s.queue,
                 history := rest, isPlaying := true, progress := 0 }) := by
  refine ⟨?_, ?_, ?_⟩
  · intro hp
    simp [previousSong, hp, seekTo]
  · intro hp hh
    simp [previousSong, hp, hh]
  · intro hp hh hc
    simp [previousSong, hp, hh, hc]

/-- C4 (witness): the spec scenario `history=[X,Y]`, `currentTrack=Z`,
`progress=1`. -/
theorem c4_previousSong_cases_witness :
    previousSong stateC4 =
      { stateC4 with currentSong := some songX, queue := [songZ],
                     history := [songY], isPlaying := true, progress := 0 } :=
  (c4_previousSong_cases stateC4 songX songZ [songY]).2.2 (by decide) rfl rfl

/-- C5 (counterexample): with `repeatMode = One` an `onEnded()` keeps the
same current track, but selecting a track with no audio source advances
to the queue head via `nextSong()` — not "exactly as if onEnded() had
fired". -/
theorem c5_missing_source_not_onEnded_counterexample :
    stateC5.currentSong = some songNoSrc ∧
    songNoSrc.previewUrl = none ∧
    (playbackEffect false stateC5).currentSong = some songA ∧
    (handleSongEnd stateC5).currentSong = some songNoSrc ∧
    (playbackEffect false stateC5).currentSong ≠
      (handleSongEnd stateC5).currentSong := by
  refine ⟨rfl, rfl, rfl, rfl, ?_⟩
  decide

/-- C5 (amended): when the current track has no audio source reference,
the playback effect logs and auto-advances by calling `nextSong()`
directly — so with `repeatMode = One` it still advances, and with an
empty queue and `repeatMode ≠ All` it is a no-op — and it never raises a
blocking error. -/
theorem c5_missing_source_skips_via_next_amended (b : Bool) (s : PState)
    (song : Song) (hc : s.currentSong = some song)
    (hu : song.previewUrl = none) :
    playbackEffect b s = nextSong s := by
  unfold playbackEffect
  rw [hc]
  simp [hu]

/-- C5 (amended, witness): the skip at the repeat-one state with a
sourceless current track. -/
theorem c5_missing_source_skips_via_next_amended_witness :
    playbackEffect true stateC5 = nextSong stateC5 :=
  c5_missing_source_skips_via_next_amended true stateC5 songNoSrc rfl rfl

/-- C6: with `repeatMode = One`, `onEnded()` leaves the current track,
queue and history unchanged, keeps `isPlaying = true`, seeks the audio
back to 0, and the store's progress reads 0 at the seek-fired
`timeupdate`. -/
theorem c6_repeat_one_onEnded (s : PState)
    (hr : s.repeatMode = RepeatMode.one) (hp : s.isPlaying = true) :
    (handleSongEnd s).currentSong = s.currentSong ∧
    (handleSongEnd s).queue = s.queue ∧
    (handleSongEnd s).history = s.history ∧
    (handleSongEnd s).isPlaying = true ∧
    (handleSongEnd s).audioTime = 0 ∧
    (handleTimeUpdate (handleSongEnd s)).progress = 0 := by
  simp [handleSongEnd, hr, hp, handleTimeUpdate]

/-- C6 (witness): the repeat-one end-of-track state. -/
theorem c6_repeat_one_onEnded_witness :
    (handleSongEnd stateC6).currentSong = stateC6.currentSong ∧
    (handleSongEnd stateC6).queue = stateC6.queue ∧
    (handleSongEnd stateC6).history = stateC6.history ∧
    (handleSongEnd stateC6).isPlaying = true ∧
    (handleSongEnd stateC6).audioTime = 0 ∧
    (handleTimeUpdate (handleSongEnd stateC6)).progress = 0 :=
  c6_repeat_one_onEnded stateC6 rfl rfl

/-- C7 (counterexample): `seekTo` stores the raw time — with a known
duration of 10, `seekTo(15)` leaves `progress = 15 > duration`, and
`seekTo(-2)` leaves `progress = -2`; no clamping to `[0, duration]`
happens. -/
theorem c7_seekTo_unclamped_counterexample :
    (handleLoadedMetadata 10 initState).duration = 10 ∧
    (seekTo 15 (handleLoadedMetadata 10 initState)).progress = 15 ∧
    ¬ (seekTo 15 (handleLoadedMetadata 10 initState)).progress ≤
        (seekTo 15 (handleLoadedMetadata 10 initState)).duration ∧
    (seekTo (-2) initState).progress = -2 := by
  refine ⟨rfl, rfl, ?_, rfl⟩
  simp only [seekTo, handleLoadedMetadata]
  norm_num

/-- C7 (amended): after `seekTo(t)` both the stored progress and the
audio position equal `t` exactly, with no clamping; the rest of the state
is untouched, so `progress ≤ duration` is not enforced by `seekTo`. -/
theorem c7_seekTo_stores_raw_amended (t : ℚ) (s : PState) :
    (seekTo t s).progress = t ∧
    (seekTo t s).audioTime = t ∧
    (seekTo t s).duration = s.duration ∧
    (seekTo t s).queue = s.queue ∧
    (seekTo t s).history = s.history ∧
    (seekTo t s).currentSong = s.currentSong :=
  ⟨rfl, rfl, rfl, rfl, rfl, rfl⟩

/-- C8: when the engine rejects a play attempt, both the load effect and
the play/pause effect roll `isPlaying` back to `false` and change nothing
else — queue, history and current track are untouched. -/
theorem c8_playback_blocked_rollback (s : PState) (song : Song)
    (url : String) (hc : s.currentSong = some song)
    (hu : song.previewUrl = some url) (hp : s.isPlaying = true) :
    playbackEffect true s = { s with isPlaying := false } ∧
    playPauseEffect true s = { s with isPlaying := false } ∧
    (playbackEffect true s).queue = s.queue ∧
    (playbackEffect true s).history = s.history ∧
    (playbackEffect true s).currentSong = s.currentSong := by
  refine ⟨?_, ?_, ?_, ?_, ?_⟩ <;>
    simp [playbackEffect, playPauseEffect, hc, hu, hp]

/-- C8 (witness): the rollback at a concrete playing state. -/
theorem c8_playback_blocked_rollback_witness :
    playbackEffect true stateC8 = { stateC8 with isPlaying := false } ∧
    playPauseEffect true stateC8 = { stateC8 with isPlaying := false } ∧
    (playbackEffect true stateC8).queue = stateC8.queue ∧
    (playbackEffect true stateC8).history = stateC8.history ∧
    (playbackEffect true stateC8).currentSong = stateC8.currentSong :=
  c8_playback_blocked_rollback stateC8 songA "a.mp3" rfl rfl rfl

/-- C9: the init effect applies the single load result; a missing record
and a malformed record (the `JSON.parse` failure is caught) both leave
the defaults `volume = 0.7`, `repeatMode = Off`,
`playlistModeEnabled = false` in place, and no error escapes. -/
theorem c9_init_defaults :
    initLoad LoadOutcome.absent initState = initState ∧
    initLoad LoadOutcome.malformed initState = initState ∧
    initState.volume = defaultVolume ∧
    initState.repeatMode = RepeatMode.off ∧
    initState.playlistMode = false ∧
    defaultVolume = 7 / 10 :=
  ⟨rfl, rfl, rfl, rfl, rfl, rfl⟩

/-- C10: from a state with a current track, a non-empty queue and fewer
than 20 history entries, `next()` followed immediately by `previous()`
restores the current track, queue and history exactly, leaving
`isPlaying = true` and `progress = 0`. -/
theorem c10_next_previous_roundtrip (s : PState) (c a : Song)
    (rest : List Song) (hc : s.currentSong = some c)
    (hq : s.queue = a :: rest) (hh : s.history.length < MAX_HISTORY_LENGTH) :
    (previousSong (nextSong s)).currentSong = s.currentSong ∧
    (previousSong (nextSong s)).queue = s.queue ∧
    (previousSong (nextSong s)).history = s.history ∧
    (previousSong (nextSong s)).isPlaying = true ∧
    (previousSong (nextSong s)).progress = 0 := by
  have hpush : pushHistory c s.history = c :: s.history := by
    unfold pushHistory
    apply List.take_of_length_le
    simp only [List.length_cons]
    omega
  have hns : nextSong s =
      { s with history := c :: s.history, currentSong := some a,
               queue := rest, isPlaying := true, progress := 0 } := by
    unfold nextSong
    rw [hq]
    simp [pushIfCurrent, hc, hpush]
  have h3 : ¬ (0 : ℚ) > 3 := by norm_num
  rw [hns]
  simp [previousSong, h3, hc, hq]

/-- C10 (witness): the round trip at a concrete state. -/
theorem c10_next_previous_roundtrip_witness :
    (previousSong (nextSong stateC10)).currentSong = stateC10.currentSong ∧
    (previousSong (nextSong stateC10)).queue = stateC10.queue ∧
    (previousSong (nextSong stateC10)).history = stateC10.history ∧
    (previousSong (nextSong stateC10)).isPlaying = true ∧
    (previousSong (nextSong stateC10)).progress = 0 :=
  c10_next_previous_roundtrip stateC10 songA songB [] rfl rfl (by decide)

end PlaybackEngine
